import Mathlib

/-!
Verification development for the han-agents repository.

Part I embeds the SSOT-code drift detector (`servers/drift.py`): pure string
helpers mirroring the Python `str`/`os.path` operations it uses, the
`DriftItem`/`DriftReport` data model, and `detect_all_drifts`.  The collaborators
`parse_index`, `get_code_nodes` and `get_code_graph_stats` are out-of-repo
modules; their results enter `detect_all_drifts` as explicit arguments, with a
raised exception from `parse_index` modelled as `Except.error`.  The latent
`AttributeError` in the fuzzy spec-matching loop (calling `.lower()` on a `None`
dictionary key) is modelled by giving `detect_all_drifts` an `Except` result.
Wall-clock fields (`checked_at`, `detected_at`) are omitted: they carry no
information about the detection logic.

Part II embeds the semantic-memory retrieval cascade.  The modules
`servers/memory.py` and `servers/memory_embeddings.py` are not part of the
source tree (only their tests are), so those definitions are modelled from the
spec, with Python floats idealised as real numbers.
-/

/-! ### String helpers mirroring Python primitives -/

/-- Model of Python `needle in hay` (contiguous substring test). -/
def strContains (hay needle : String) : Bool :=
  containsAux needle.data hay.data
where
  containsAux (needle : List Char) : List Char → Bool
    | [] => needle.isEmpty
    | c :: cs => needle.isPrefixOf (c :: cs) || containsAux needle cs

/-- Model of Python `s.endswith(suf)`. -/
def strEndsWith (s suf : String) : Bool :=
  List.isSuffixOf suf.data s.data

/-- Model of Python `s.replace(pat, rep)` for a non-empty `pat`: replaces every
non-overlapping occurrence left to right.  The first argument counts characters
still to skip after an accepted occurrence. -/
def replaceAux (pat rep : List Char) : Nat → List Char → List Char
  | _, [] => []
  | Nat.succ k, _ :: cs => replaceAux pat rep k cs
  | 0, c :: cs =>
    if pat.isPrefixOf (c :: cs)
    then rep ++ replaceAux pat rep (pat.length - 1) cs
    else c :: replaceAux pat rep 0 cs

/-- Model of Python `s.replace(pat, rep)` (for the non-empty patterns the code
uses) lifted to `String`. -/
def pyReplace (s pat rep : String) : String :=
  String.mk (replaceAux pat.data rep.data 0 s.data)

/-- Model of Python `s.lower()` (ASCII case folding, as used on identifiers). -/
def pyLower (s : String) : String :=
  String.mk (s.data.map Char.toLower)

/-- Model of Python `s.rstrip('s')`: drops every trailing `'s'`. -/
def rstripS (s : String) : String :=
  String.mk ((s.data.reverse.dropWhile (fun c => c = 's')).reverse)

/-- Splits a character list at every occurrence of `sep`, keeping empty chunks,
like `str.split(sep)` with an explicit one-character separator. -/
def splitChar (sep : Char) : List Char → List (List Char)
  | [] => [[]]
  | c :: cs =>
    if c = sep then [] :: splitChar sep cs
    else
      match splitChar sep cs with
      | [] => [[c]]
      | h :: t => (c :: h) :: t

/-- Model of Python `os.path.basename` on POSIX paths: the part after the last
slash. -/
def pyBasename (path : String) : String :=
  String.mk ((splitChar '/' path.data).getLastD [])

/-- Model of Python `str.split()` on identifier-style strings: splits on spaces
and discards empty chunks. -/
def pySplitWs (s : String) : List String :=
  ((splitChar ' ' s.data).filter (fun w => ¬ w.isEmpty)).map String.mk

/-- Model of the stem part of Python `os.path.splitext` on a basename: cuts the
suffix starting at the last dot, unless every character before that dot is
itself a dot (so `".bashrc"` keeps its name, as in CPython). -/
def splitextStem (name : String) : String :=
  let rev := name.data.reverse
  let ext := rev.takeWhile (fun c => c ≠ '.')
  if ext.length = rev.length then name
  else
    let stem := (rev.drop (ext.length + 1)).reverse
    if stem.any (fun c => c ≠ '.') then String.mk stem else name

/-- First-occurrence deduplication with an accumulator of already-seen
elements. -/
def pyDedupAux {α : Type} [DecidableEq α] (seen : List α) : List α → List α
  | [] => []
  | x :: xs =>
    if seen.contains x then pyDedupAux seen xs
    else x :: pyDedupAux (seen ++ [x]) xs

/-- First-occurrence deduplication: the key sequence of a Python dict built by
repeated insertion, and the element test of a Python `set`. -/
def pyDedup {α : Type} [DecidableEq α] : List α → List α :=
  pyDedupAux []

/-- Zero-padded rendering of `n` to at least four digits, as Python
`f"{n:04d}"` for non-negative `n`. -/
def pad4 (n : Nat) : String :=
  let s := toString n
  String.mk (List.replicate (4 - s.length) '0') ++ s

/-! ### Data model of `servers/drift.py` -/

/-- `DriftItem` from `servers/drift.py` (the `detected_at` wall-clock field is
omitted). -/
structure DriftItem where
  id : String
  type : String
  severity : String
  ssot_item : Option String := none
  code_item : Option String := none
  description : String := ""
  suggestion : String := ""
deriving DecidableEq

/-- `DriftReport` from `servers/drift.py` (the `checked_at` wall-clock field is
omitted); the defaults mirror the dataclass defaults. -/
structure DriftReport where
  has_drift : Bool := false
  drift_count : Nat := 0
  drifts : List DriftItem := []
  summary : String := ""
deriving DecidableEq

/-- A node of the code graph as consumed by `detect_all_drifts`: the fields it
indexes (`n['kind']`, `n['file_path']`). -/
structure CodeNode where
  kind : String
  file_path : String
deriving DecidableEq

/-- A raw SSOT node as produced by `parse_index`: a dictionary whose `id` and
`ref` keys may be absent (the code reads both with `.get`). -/
structure RawSsotNode where
  id : Option String := none
  ref : Option String := none
deriving DecidableEq

/-- An SSOT node after the flattening step of `detect_all_drifts`, which
assigns `node['kind']`. -/
structure SsotNode where
  id : Option String := none
  ref : Option String := none
  kind : String
deriving DecidableEq

/-- The flattening loop of `detect_all_drifts`: every node of every
`(kind, nodes)` entry of the parsed index receives `kind.rstrip('s')`. -/
def flattenSsot (data : List (String × List RawSsotNode)) : List SsotNode :=
  data.flatMap (fun kn => kn.2.map (fun n => ⟨n.id, n.ref, rstripS kn.1⟩))

/-- `make_drift_id` from `detect_all_drifts`: `f"drift-{project}-{n:04d}"`. -/
def make_drift_id (project : String) (n : Nat) : String :=
  "drift-" ++ project ++ "-" ++ pad4 n

/-! ### Flow → implementation check (`detect_all_drifts`, step 3) -/

/-- The heuristic file match of step 3 of `detect_all_drifts`, for one code
file path: normalized stem containment, then common-word count when the flow
name has at least two words, then path containment. -/
def flowFileMatch (flow_name_normalized : String) (flow_name_parts : List String)
    (fp : String) : Bool :=
  let file_name := pyLower (pyBasename fp)
  let file_stem := splitextStem file_name
  let fsn := pyReplace (pyReplace file_stem ("-") ("_")) (".") ("_")
  if strContains fsn flow_name_normalized || strContains flow_name_normalized fsn then
    true
  else if 2 ≤ flow_name_parts.length then
    let file_parts := pyDedup (pySplitWs (pyReplace (pyReplace file_stem ("-") (" ")) ("_") (" ")))
    decide (min 2 flow_name_parts.length ≤
      (flow_name_parts.filter (fun w => file_parts.contains w)).length)
  else
    strContains (pyReplace (pyLower fp) ("-") ("_")) flow_name_normalized

/-- Whether step 3 of `detect_all_drifts` finds an implementation for `flow`:
the `ref` scan (when `ref` is non-empty) followed, on failure, by the heuristic
scan over every code file path. -/
def flowHasImpl (flow : SsotNode) (code_file_paths : List String) : Bool :=
  let flow_id := flow.id.getD ""
  let flow_name := pyLower (pyReplace flow_id ("flow.") (""))
  let ref := flow.ref.getD ""
  let fnn := pyReplace (pyReplace flow_name ("-") ("_")) (".") ("_")
  let parts := pyDedup (pySplitWs (pyReplace (pyReplace flow_name ("-") (" ")) ("_") (" ")))
  let refMatch :=
    if ref ≠ "" then
      code_file_paths.any (fun fp => strContains fp ref || strEndsWith fp ref)
    else false
  if refMatch then true
  else code_file_paths.any (flowFileMatch fnn parts)

/-- Step 3 of `detect_all_drifts`: one `missing_implementation` drift per SSOT
flow with no matching code file, numbered by the shared drift counter. -/
def missingImplDrifts (project : String) (flows : List SsotNode)
    (code_file_paths : List String) : List DriftItem :=
  flows.foldl
    (fun acc flow =>
      if flowHasImpl flow code_file_paths then acc
      else
        let flow_id := flow.id.getD ""
        acc ++ [{ id := make_drift_id project (acc.length + 1),
                  type := "missing_implementation",
                  severity := "high",
                  ssot_item := some flow_id,
                  description := "Flow '" ++ flow_id ++ "' defined in SSOT but no matching code files found",
                  suggestion := "Create implementation file for " ++ flow_id ++ " or update SSOT if flow was removed" }])
    []

/-! ### Code → spec check (`detect_all_drifts`, step 4) -/

/-- The directory patterns marking a code file as important in step 4. -/
def important_patterns : List String :=
  ["api/", "routes/", "controllers/", "services/", "handlers/"]

/-- The fuzzy SSOT-id scan of step 4: walks the dictionary keys in order; a
`None` key raises `AttributeError` when reached (modelled as `Except.error`),
a key containing the lowered file name succeeds. -/
def fuzzyHasSpec (file_name : String) : List (Option String) → Except String Bool
  | [] => Except.ok false
  | none :: _ => Except.error "AttributeError: NoneType object has no attribute lower"
  | some sid :: rest =>
    if strContains (pyLower sid) (pyLower file_name) then Except.ok true
    else fuzzyHasSpec file_name rest

/-- Step 4 of `detect_all_drifts`: one `missing_spec` drift per important code
file without an SSOT spec, continuing the drift counter at `startCount`. -/
def missingSpecDrifts (project : String) (ssotKeys : List (Option String))
    (startCount : Nat) : List CodeNode → Except String (List DriftItem)
  | [] => Except.ok []
  | cf :: rest =>
    let file_path := cf.file_path
    if important_patterns.any (fun p => strContains file_path p) then
      let file_name := splitextStem (pyBasename file_path)
      let expected := "flow." ++ file_name
      match (if ssotKeys.contains (some expected)
             then Except.ok true
             else fuzzyHasSpec file_name ssotKeys) with
      | Except.error e => Except.error e
      | Except.ok true => missingSpecDrifts project ssotKeys startCount rest
      | Except.ok false =>
        match missingSpecDrifts project ssotKeys (startCount + 1) rest with
        | Except.error e => Except.error e
        | Except.ok ds =>
          Except.ok ({ id := make_drift_id project (startCount + 1),
                       type := "missing_spec",
                       severity := "medium",
                       code_item := some file_path,
                       description := "Code file '" ++ file_path ++ "' exists but no SSOT spec found",
                       suggestion := "Create SSOT spec for '" ++ expected ++ "' in brain/ssot/flows/" } :: ds)
    else missingSpecDrifts project ssotKeys startCount rest

/-- Ascending insertion into a lexicographically sorted list of strings. -/
def insertSorted (x : String) : List String → List String
  | [] => [x]
  | y :: ys => if x ≤ y then x :: y :: ys else y :: insertSorted x ys

/-- Model of Python `sorted` on distinct strings. -/
def sortStrings : List String → List String
  | [] => []
  | x :: xs => insertSorted x (sortStrings xs)

/-- Step 5 of `detect_all_drifts`: the summary line, counting drifts by type
with the types in sorted order. -/
def driftSummary (drifts : List DriftItem) : String :=
  if drifts.isEmpty then "No drift detected. SSOT and Code are in sync."
  else
    let types := sortStrings (pyDedup (drifts.map (fun d => d.type)))
    let parts := types.map
      (fun t => toString (drifts.filter (fun d => d.type = t)).length ++ " " ++ t)
    "Found " ++ toString drifts.length ++ " drift(s): " ++ String.intercalate (", ") parts

/-- `detect_all_drifts` from `servers/drift.py`.  The results of the three
collaborator calls enter as arguments: `parseResult` is the outcome of
`parse_index` (`Except.error` when it raised), `code_nodes` is the result of
`get_code_nodes`, and `node_count` is `get_code_graph_stats(...)['node_count']`.
The overall `Except` propagates the latent `AttributeError` of the fuzzy scan;
every other path returns `Except.ok`. -/
def detect_all_drifts (project : String)
    (parseResult : Except String (List (String × List RawSsotNode)))
    (code_nodes : List CodeNode) (node_count : Nat) :
    Except String DriftReport :=
  match parseResult with
  | Except.error e =>
    Except.ok { has_drift := false,
                summary := "Cannot detect drift: SSOT Index not found (" ++ e ++ ")" }
  | Except.ok ssot_data =>
    let ssot_nodes := flattenSsot ssot_data
    if node_count = 0 then
      Except.ok { has_drift := false,
                  summary := "Cannot detect drift: Code Graph is empty. Run sync first." }
    else
      let ssotKeys := pyDedup (ssot_nodes.map (fun n => n.id))
      let ssot_flows := ssot_nodes.filter (fun n => n.kind = "flow")
      let code_files := code_nodes.filter (fun n => n.kind = "file")
      let code_file_paths := pyDedup (code_files.map (fun n => n.file_path))
      let implDrifts := missingImplDrifts project ssot_flows code_file_paths
      match missingSpecDrifts project ssotKeys implDrifts.length code_files with
      | Except.error e => Except.error e
      | Except.ok specDrifts =>
        let drifts := implDrifts ++ specDrifts
        Except.ok { has_drift := decide (0 < drifts.length),
                    drift_count := drifts.length,
                    drifts := drifts,
                    summary := driftSummary drifts }

/-! ### Part II: semantic-memory retrieval cascade (spec-modelled)

The modules under verification here (`servers/memory.py`,
`servers/memory_embeddings.py`) are not in the source tree; only their test
suite is.  Every definition below is therefore modelled from the spec
(sections 2-4, 6, 9), with Python floats idealised as real numbers.  The two
collaborators of the core (the lexical search function and the embedding
backend) are passed in explicitly, as the spec's design notes require. -/

/-- Modelled from the spec: a `MemoryRecord` (spec section 3) as produced by
the persistence collaborator, which is not in the source tree. -/
structure MemoryRecord where
  id : Nat
  category : String := ""
  project : String := ""
  title : String := ""
  content : String := ""
  importance : Int := 0
  branch_flow : Option String := none
  created_at : String := ""
deriving DecidableEq

/-- Modelled from the spec: a result entry of the retrieval cascade — a
`MemoryRecord` optionally annotated with a `semantic_score` (spec section 3).
Only the embedding re-ranker attaches a score. -/
structure ScoredRecord where
  record : MemoryRecord
  semantic_score : Option ℝ := none

/-- Modelled from the spec: the embedding backend of `memory_embeddings.py`
(missing from the source tree) as an injectable service object with a pure
capability probe and an embedding function (spec sections 6 and 9). -/
structure EmbeddingBackend where
  is_available : Bool
  embed : String → List ℝ

/-- Modelled from the spec: the filter set of a retrieval request — an open
set of key/value constraints passed through to the lexical collaborator
unchanged (spec sections 4.1 and 6). -/
abbrev Filters := List (String × String)

/-- Modelled from the spec: the `SearchResult` envelope (spec section 3) —
a mode tag and either a `results` sequence or a `candidates` plus
`rerank_prompt` pair; absent keys of the Python dictionary are `none`. -/
structure SearchResponse where
  mode : String
  results : Option (List ScoredRecord) := none
  candidates : Option (List MemoryRecord) := none
  rerank_prompt : Option String := none

/-- Modelled from the spec: the dot product underlying the cosine similarity
of `memory_embeddings.py` (missing from the source tree). -/
noncomputable def dotProduct (a b : List ℝ) : ℝ :=
  (List.zipWith (fun x y => x * y) a b).sum

/-- Modelled from the spec: the Euclidean norm of an embedding vector. -/
noncomputable def vecNorm (a : List ℝ) : ℝ :=
  Real.sqrt (dotProduct a a)

/-- Modelled from the spec: `cosine_similarity` of `memory_embeddings.py`
(missing from the source tree): `dot(a,b) / (‖a‖·‖b‖)`, with similarity
against a zero-norm vector defined as `0.0` instead of a division fault
(spec section 4.4). -/
noncomputable def cosine_similarity (a b : List ℝ) : ℝ :=
  if vecNorm a = 0 ∨ vecNorm b = 0 then 0
  else dotProduct a b / (vecNorm a * vecNorm b)

/-- Modelled from the spec: the linear remap of a raw cosine into a
`semantic_score`, `clamp((cosine+1)/2, 0, 1)` (spec section 3). -/
noncomputable def clamp (x lo hi : ℝ) : ℝ :=
  max lo (min hi x)

/-- Descending stable insertion by score: a later element is placed after
every earlier element with the same score. -/
noncomputable def insertDesc (x : MemoryRecord × ℝ) :
    List (MemoryRecord × ℝ) → List (MemoryRecord × ℝ)
  | [] => [x]
  | y :: ys => if y.2 ≤ x.2 then x :: y :: ys else y :: insertDesc x ys

/-- Modelled from the spec: the stable descending sort of the embedding
re-ranker — sort by similarity descending, ties kept in original lexical
order (spec section 4.4). -/
noncomputable def sortDesc : List (MemoryRecord × ℝ) → List (MemoryRecord × ℝ)
  | [] => []
  | x :: xs => insertDesc x (sortDesc xs)

/-- Modelled from the spec: `rerank_by_embedding` of `memory_embeddings.py`
(missing from the source tree).  When the capability probe succeeds: embed
the query and each candidate's content, sort descending by cosine similarity
(stable), take the top `limit`, attach the remapped `semantic_score`.  When
it fails: the input candidates truncated to `limit`, original order,
unmodified, no error (spec section 4.4). -/
noncomputable def rerank_by_embedding (B : EmbeddingBackend) (query : String)
    (candidates : List MemoryRecord) (limit : Nat) : List ScoredRecord :=
  if B.is_available then
    let qv := B.embed query
    let scored := candidates.map (fun c => (c, cosine_similarity (B.embed c.content) qv))
    ((sortDesc scored).take limit).map
      (fun p => ⟨p.1, some (clamp ((p.2 + 1) / 2) 0 1)⟩)
  else
    (candidates.take limit).map (fun c => ⟨c, none⟩)

/-- Renders one line per candidate: zero-based index, title and content
excerpt. -/
def renderCandidates : Nat → List MemoryRecord → String
  | _, [] => ""
  | i, c :: cs =>
    "[" ++ (toString i ++ ("] " ++ (c.title ++ (": " ++ (c.content ++ ("\n" ++ renderCandidates (i + 1) cs))))))

/-- Modelled from the spec: the LLM rerank prompt builder of `memory.py`
(missing from the source tree): a deterministic prompt repeating the query
verbatim, listing each candidate by zero-based index with a title + content
excerpt, and stating the bracketed index-list answer shape, e.g. `[0, 3, 7]`
(spec section 4.3). -/
def build_rerank_prompt (query : String) (candidates : List MemoryRecord)
    (limit : Nat) : String :=
  "Query: " ++ (query ++ ("\n\nCandidates:\n" ++ (renderCandidates 0 candidates ++
    ("\n\nSelect the most relevant candidates for the query above and reply with a bracketed list of at most " ++
      (toString limit ++ (" zero-based candidate indices ordered by relevance, e.g. " ++ ("[0, 3, 7]" ++ ".")))))))

/-- Modelled from the spec: the candidate generator of `memory.py` (missing
from the source tree): an empty query yields an empty pool with no
collaborator call; otherwise the lexical collaborator is asked for
`max(limit, 20)` candidates with the filters passed through unchanged (spec
section 4.1). -/
def candidate_pool (searchFn : String → String → Nat → Filters → List MemoryRecord)
    (query project : String) (limit : Nat) (filters : Filters) : List MemoryRecord :=
  if query = "" then [] else searchFn query project (max limit 20) filters

/-- Modelled from the spec: `search_memory_semantic` of `memory.py` (missing
from the source tree): candidate generation followed by the mode dispatcher
of spec section 4.2, whose transition rules are evaluated in order, and the
result assembler of section 4.5. -/
noncomputable def search_memory_semantic
    (searchFn : String → String → Nat → Filters → List MemoryRecord)
    (B : EmbeddingBackend) (query project : String) (limit : Nat)
    (rerank_mode : String) (filters : Filters) : SearchResponse :=
  let pool := candidate_pool searchFn query project limit filters
  if rerank_mode = "none" then
    { mode := "fts5_only", results := some ((pool.take limit).map (fun c => ⟨c, none⟩)) }
  else if pool.length ≤ limit then
    { mode := "fts5_only", results := some ((pool.take limit).map (fun c => ⟨c, none⟩)) }
  else if rerank_mode = "claude" then
    { mode := "claude_rerank", candidates := some (pool.take 20),
      rerank_prompt := some (build_rerank_prompt query (pool.take 20) limit) }
  else if rerank_mode = "embedding" then
    if B.is_available then
      { mode := "embedding_rerank", results := some (rerank_by_embedding B query pool limit) }
    else
      { mode := "fts5_fallback", results := some ((pool.take limit).map (fun c => ⟨c, none⟩)) }
  else
    { mode := "fallback", results := some ((pool.take limit).map (fun c => ⟨c, none⟩)) }

/-- Modelled from the spec: vector negation, used to state the opposite-vector
property of the cosine similarity (spec section 4.4). -/
noncomputable def negVec (v : List ℝ) : List ℝ :=
  v.map (fun x => -x)

/-! ## Theorems -/

/-! ### Claims C9 and C10: invariants of `detect_all_drifts` -/

/-- C9: every `DriftReport` returned by `detect_all_drifts`, on every return
path, satisfies `drift_count = drifts.length` and
`has_drift = (drift_count > 0)`. -/
theorem detect_all_drifts_ok_shape (project : String)
    (parseResult : Except String (List (String × List RawSsotNode)))
    (code_nodes : List CodeNode) (node_count : Nat) (report : DriftReport)
    (h : detect_all_drifts project parseResult code_nodes node_count = Except.ok report) :
    report.drift_count = report.drifts.length ∧
      report.has_drift = decide (0 < report.drift_count) := by
  unfold detect_all_drifts at h
  cases parseResult with
  | error e => cases h; simp
  | ok ssot_data =>
    by_cases hn : node_count = 0
    · simp only [hn, if_pos] at h
      cases h; simp
    · simp only [if_neg hn] at h
      cases hms : missingSpecDrifts project
          (pyDedup ((flattenSsot ssot_data).map (fun n => n.id)))
          (missingImplDrifts project
            ((flattenSsot ssot_data).filter (fun n => n.kind = "flow"))
            (pyDedup ((code_nodes.filter (fun n => n.kind = "file")).map (fun n => n.file_path)))).length
          (code_nodes.filter (fun n => n.kind = "file")) with
      | error e => rw [hms] at h; cases h
      | ok specDrifts => rw [hms] at h; cases h; simp

/-- C9 witness: a run over one SSOT flow with no matching code file returns a
report with one drift, and the invariant holds there. -/
theorem detect_all_drifts_ok_shape_witness :
    detect_all_drifts "p" (Except.ok [("flows", [({ id := some "flow.auth" } : RawSsotNode)])])
        [⟨"file", "main.py"⟩] 1 =
      Except.ok { has_drift := true, drift_count := 1,
                  drifts := [{ id := "drift-p-0001",
                               type := "missing_implementation",
                               severity := "high",
                               ssot_item := some "flow.auth",
                               code_item := none,
                               description := "Flow 'flow.auth' defined in SSOT but no matching code files found",
                               suggestion := "Create implementation file for flow.auth or update SSOT if flow was removed" }],
                  summary := "Found 1 drift(s): 1 missing_implementation" } ∧
      ({ has_drift := true, drift_count := 1,
         drifts := [{ id := "drift-p-0001",
                      type := "missing_implementation",
                      severity := "high",
                      ssot_item := some "flow.auth",
                      code_item := none,
                      description := "Flow 'flow.auth' defined in SSOT but no matching code files found",
                      suggestion := "Create implementation file for flow.auth or update SSOT if flow was removed" }],
         summary := "Found 1 drift(s): 1 missing_implementation" } : DriftReport).drift_count =
        ({ has_drift := true, drift_count := 1,
           drifts := [{ id := "drift-p-0001",
                        type := "missing_implementation",
                        severity := "high",
                        ssot_item := some "flow.auth",
                        code_item := none,
                        description := "Flow 'flow.auth' defined in SSOT but no matching code files found",
                        suggestion := "Create implementation file for flow.auth or update SSOT if flow was removed" }],
           summary := "Found 1 drift(s): 1 missing_implementation" } : DriftReport).drifts.length :=
  ⟨rfl, (detect_all_drifts_ok_shape "p"
    (Except.ok [("flows", [({ id := some "flow.auth" } : RawSsotNode)])])
    [⟨"file", "main.py"⟩] 1 _ rfl).1⟩

/-- C10: when parsing the SSOT index raises, `detect_all_drifts` does not
propagate the exception: it returns a well-formed report with `has_drift`
false, no drifts, and a summary naming the failure. -/
theorem detect_all_drifts_parse_error_handled (project e : String)
    (code_nodes : List CodeNode) (node_count : Nat) :
    detect_all_drifts project (Except.error e) code_nodes node_count =
      Except.ok { has_drift := false, drift_count := 0, drifts := [],
                  summary := "Cannot detect drift: SSOT Index not found (" ++ e ++ ")" } :=
  rfl


/-! ### Facts about the embedding primitives -/

theorem dotProduct_cons (a b : ℝ) (v w : List ℝ) :
    dotProduct (a :: v) (b :: w) = a * b + dotProduct v w := by
  simp [dotProduct]

theorem dotProduct_self_nonneg (v : List ℝ) : 0 ≤ dotProduct v v := by
  induction v with
  | nil => simp [dotProduct]
  | cons a v ih =>
    rw [dotProduct_cons]
    exact add_nonneg (mul_self_nonneg a) ih

theorem dotProduct_self_pos (v : List ℝ) (hv : ∃ x ∈ v, x ≠ 0) :
    0 < dotProduct v v := by
  induction v with
  | nil => simp at hv
  | cons a v ih =>
    rw [dotProduct_cons]
    rcases hv with ⟨x, hx, hne⟩
    rcases List.mem_cons.mp hx with h | h
    · exact add_pos_of_pos_of_nonneg (by simpa [h] using mul_self_pos.mpr hne)
        (dotProduct_self_nonneg v)
    · exact add_pos_of_nonneg_of_pos (mul_self_nonneg a) (ih ⟨x, h, hne⟩)

theorem dotProduct_negVec_right (v : List ℝ) :
    dotProduct v (negVec v) = -dotProduct v v := by
  induction v with
  | nil => simp [dotProduct, negVec]
  | cons a v ih =>
    simp only [negVec, List.map_cons] at ih ⊢
    rw [dotProduct_cons, dotProduct_cons, ih]
    ring

theorem dotProduct_negVec_self (v : List ℝ) :
    dotProduct (negVec v) (negVec v) = dotProduct v v := by
  induction v with
  | nil => simp [dotProduct, negVec]
  | cons a v ih =>
    simp only [negVec, List.map_cons] at ih ⊢
    rw [dotProduct_cons, dotProduct_cons, ih]
    ring

theorem vecNorm_negVec (v : List ℝ) : vecNorm (negVec v) = vecNorm v := by
  unfold vecNorm
  rw [dotProduct_negVec_self]

theorem vecNorm_ne_zero_of_nonzero (v : List ℝ) (hv : ∃ x ∈ v, x ≠ 0) :
    vecNorm v ≠ 0 := by
  unfold vecNorm
  exact ne_of_gt (Real.sqrt_pos.mpr (dotProduct_self_pos v hv))

theorem mul_self_vecNorm (v : List ℝ) : vecNorm v * vecNorm v = dotProduct v v := by
  unfold vecNorm
  exact Real.mul_self_sqrt (dotProduct_self_nonneg v)

theorem cosine_similarity_self (v : List ℝ) (hv : ∃ x ∈ v, x ≠ 0) :
    cosine_similarity v v = 1 := by
  have hn := vecNorm_ne_zero_of_nonzero v hv
  unfold cosine_similarity
  rw [if_neg (by simp [hn]), mul_self_vecNorm]
  exact div_self (ne_of_gt (dotProduct_self_pos v hv))

theorem cosine_similarity_opposite (v : List ℝ) (hv : ∃ x ∈ v, x ≠ 0) :
    cosine_similarity v (negVec v) = -1 := by
  have hn := vecNorm_ne_zero_of_nonzero v hv
  unfold cosine_similarity
  rw [if_neg (by simp [hn, vecNorm_negVec]), vecNorm_negVec, mul_self_vecNorm,
    dotProduct_negVec_right, neg_div]
  rw [div_self (ne_of_gt (dotProduct_self_pos v hv))]

theorem cosine_similarity_orthogonal (v w : List ℝ) (hv : ∃ x ∈ v, x ≠ 0)
    (hw : ∃ x ∈ w, x ≠ 0) (hvw : dotProduct v w = 0) :
    cosine_similarity v w = 0 := by
  unfold cosine_similarity
  rw [if_neg (by simp [vecNorm_ne_zero_of_nonzero v hv, vecNorm_ne_zero_of_nonzero w hw]),
    hvw, zero_div]

/-- C3: for a nonzero vector `v`, `cosine_similarity v v` is `1.0` within
tolerance `1e-4`; `cosine_similarity v (-v)` is `-1.0` within the same
tolerance; and for nonzero orthogonal `v`, `w`, `cosine_similarity v w` is
`0.0` within the same tolerance. -/
theorem cosine_similarity_basic_values (v w : List ℝ) (hv : ∃ x ∈ v, x ≠ 0)
    (hw : ∃ x ∈ w, x ≠ 0) (hvw : dotProduct v w = 0) :
    |cosine_similarity v v - 1| < 1 / 10000 ∧
    |cosine_similarity v (negVec v) + 1| < 1 / 10000 ∧
    |cosine_similarity v w| < 1 / 10000 := by
  rw [cosine_similarity_self v hv, cosine_similarity_opposite v hv,
    cosine_similarity_orthogonal v w hv hw hvw]
  norm_num

/-- C3 witness: the spec's own example pair `[1,0,0]`, `[0,1,0]`. -/
theorem cosine_similarity_basic_values_witness :
    ((1 : ℝ) ∈ [(1 : ℝ), 0, 0] ∧ (1 : ℝ) ≠ 0) ∧
    dotProduct [(1 : ℝ), 0, 0] [(0 : ℝ), 1, 0] = 0 ∧
    (|cosine_similarity [(1 : ℝ), 0, 0] [(1 : ℝ), 0, 0] - 1| < 1 / 10000 ∧
     |cosine_similarity [(1 : ℝ), 0, 0] (negVec [(1 : ℝ), 0, 0]) + 1| < 1 / 10000 ∧
     |cosine_similarity [(1 : ℝ), 0, 0] [(0 : ℝ), 1, 0]| < 1 / 10000) :=
  ⟨⟨by simp, one_ne_zero⟩, by simp [dotProduct],
    cosine_similarity_basic_values [(1 : ℝ), 0, 0] [(0 : ℝ), 1, 0]
      ⟨1, by simp, one_ne_zero⟩ ⟨1, by simp, one_ne_zero⟩ (by simp [dotProduct])⟩

/-- C4: similarity against a zero-norm vector is exactly `0.0` in both
argument positions; the division is guarded, so the division-by-zero branch
is unreachable and no error is raised. -/
theorem cosine_similarity_zero_norm (v z : List ℝ) (hz : vecNorm z = 0) :
    cosine_similarity v z = 0 ∧ cosine_similarity z v = 0 := by
  constructor
  · unfold cosine_similarity
    rw [if_pos (Or.inr hz)]
  · unfold cosine_similarity
    rw [if_pos (Or.inl hz)]

/-- C4 witness: the zero vector `[0, 0]` against `[3, 4]`. -/
theorem cosine_similarity_zero_norm_witness :
    vecNorm [(0 : ℝ), 0] = 0 ∧
    cosine_similarity [(3 : ℝ), 4] [(0 : ℝ), 0] = 0 ∧
    cosine_similarity [(0 : ℝ), 0] [(3 : ℝ), 4] = 0 := by
  have hz : vecNorm [(0 : ℝ), 0] = 0 := by
    unfold vecNorm
    simp [dotProduct]
  exact ⟨hz, cosine_similarity_zero_norm [(3 : ℝ), 4] [(0 : ℝ), 0] hz⟩

/-! ### Claims about the retrieval cascade -/

/-- C1: when the capability probe reports the backend unavailable,
`rerank_by_embedding` returns the first `min(limit, |C|)` candidates in their
original order with no score attached, and (being a total function) raises
no error. -/
theorem rerank_by_embedding_unavailable (B : EmbeddingBackend) (q : String)
    (C : List MemoryRecord) (limit : Nat) (h : B.is_available = false) :
    rerank_by_embedding B q C limit = (C.take limit).map (fun c => ⟨c, none⟩) ∧
    (rerank_by_embedding B q C limit).map (fun r => r.record) = C.take limit ∧
    (rerank_by_embedding B q C limit).length = min limit C.length := by
  have he : rerank_by_embedding B q C limit = (C.take limit).map (fun c => ⟨c, none⟩) := by
    unfold rerank_by_embedding
    rw [h]
    simp
  refine ⟨he, ?_, ?_⟩
  · rw [he, List.map_map]
    simp [Function.comp_def]
  · rw [he]
    simp

/-- C1 witness: an unavailable backend over the two-candidate list of the
repository's fallback test keeps identity order. -/
theorem rerank_by_embedding_unavailable_witness :
    ({ is_available := false, embed := fun _ => [] } : EmbeddingBackend).is_available = false ∧
    rerank_by_embedding { is_available := false, embed := fun _ => [] } "query"
        [{ id := 1, title := "First", content := "First content" },
         { id := 2, title := "Second", content := "Second content" }] 2 =
      [⟨{ id := 1, title := "First", content := "First content" }, none⟩,
       ⟨{ id := 2, title := "Second", content := "Second content" }, none⟩] ∧
    (rerank_by_embedding { is_available := false, embed := fun _ => [] } "query"
        [{ id := 1, title := "First", content := "First content" },
         { id := 2, title := "Second", content := "Second content" }] 2).length = min 2 2 := by
  have h := rerank_by_embedding_unavailable
    { is_available := false, embed := fun _ => [] } "query"
    [{ id := 1, title := "First", content := "First content" },
     { id := 2, title := "Second", content := "Second content" }] 2 rfl
  exact ⟨rfl, h.1, h.2.2⟩

/-- C2: when the candidate pool is no larger than the limit, the response is
tagged `fts5_only` with the whole pool as unscored results, whatever rerank
mode was requested. -/
theorem insufficient_pool_fts5 (f : String → String → Nat → Filters → List MemoryRecord)
    (B : EmbeddingBackend) (q p : String) (limit : Nat) (m : String) (fv : Filters)
    (h : (candidate_pool f q p limit fv).length ≤ limit) :
    (search_memory_semantic f B q p limit m fv).mode = "fts5_only" ∧
    (search_memory_semantic f B q p limit m fv).results =
      some ((candidate_pool f q p limit fv).map (fun c => ⟨c, none⟩)) := by
  unfold search_memory_semantic
  by_cases hm : m = "none"
  · simp [hm, List.take_of_length_le h]
  · simp [hm, h, List.take_of_length_le h]

/-- C2 witness: scenario B of the spec — one stored record, `limit = 10`,
requested mode `claude` — yields `fts5_only` with that single record. -/
theorem insufficient_pool_fts5_witness :
    (candidate_pool (fun _ _ n _ => List.take n [{ id := 7, title := "Unique", content := "unique xyz content" }])
        "unique xyz" "test" 10 []).length ≤ 10 ∧
    (search_memory_semantic (fun _ _ n _ => List.take n [{ id := 7, title := "Unique", content := "unique xyz content" }])
        { is_available := false, embed := fun _ => [] } "unique xyz" "test" 10 "claude" []).mode = "fts5_only" ∧
    (search_memory_semantic (fun _ _ n _ => List.take n [{ id := 7, title := "Unique", content := "unique xyz content" }])
        { is_available := false, embed := fun _ => [] } "unique xyz" "test" 10 "claude" []).results =
      some ((candidate_pool (fun _ _ n _ => List.take n [{ id := 7, title := "Unique", content := "unique xyz content" }])
        "unique xyz" "test" 10 []).map (fun c => ⟨c, none⟩)) := by
  have h : (candidate_pool (fun _ _ n _ => List.take n [({ id := 7, title := "Unique", content := "unique xyz content" } : MemoryRecord)])
      "unique xyz" "test" 10 []).length ≤ 10 := by decide
  exact ⟨h, insufficient_pool_fts5 _ { is_available := false, embed := fun _ => [] }
    "unique xyz" "test" 10 "claude" [] h⟩

/-- C6: an empty query returns `fts5_only` with empty results, for every
project, limit and rerank mode, and the response does not depend on the
lexical search collaborator (it is never invoked). -/
theorem empty_query_returns_empty (f : String → String → Nat → Filters → List MemoryRecord)
    (B : EmbeddingBackend) (p : String) (limit : Nat) (m : String) (fv : Filters) :
    (search_memory_semantic f B "" p limit m fv).mode = "fts5_only" ∧
    (search_memory_semantic f B "" p limit m fv).results = some [] ∧
    ∀ f', search_memory_semantic f' B "" p limit m fv =
      search_memory_semantic f B "" p limit m fv := by
  have hall : ∀ g : String → String → Nat → Filters → List MemoryRecord,
      search_memory_semantic g B "" p limit m fv =
        { mode := "fts5_only", results := some [] } := by
    intro g
    unfold search_memory_semantic candidate_pool
    by_cases hm : m = "none"
    · simp [hm]
    · simp [hm]
  exact ⟨by rw [hall f], by rw [hall f], fun f' => by rw [hall f', hall f]⟩

/-- C7: under the collaborator contract (results of a smaller request are the
prefix of a larger one, and an empty query returns nothing), rerank mode
`none` yields `fts5_only` and exactly the id set of a direct lexical search
with identical query, project, limit and filters. -/
theorem none_mode_matches_direct (f : String → String → Nat → Filters → List MemoryRecord)
    (B : EmbeddingBackend) (q p : String) (limit : Nat) (fv : Filters)
    (hcoh : ∀ n n', n ≤ n' → f q p n fv = (f q p n' fv).take n)
    (hempty : q = "" → f q p limit fv = []) :
    (search_memory_semantic f B q p limit "none" fv).mode = "fts5_only" ∧
    ∃ rs, (search_memory_semantic f B q p limit "none" fv).results = some rs ∧
      (rs.map (fun r => r.record.id)).toFinset =
        ((f q p limit fv).map (fun r => r.id)).toFinset := by
  have hpool : (candidate_pool f q p limit fv).take limit = f q p limit fv := by
    unfold candidate_pool
    by_cases hq : q = ""
    · subst hq
      simp [hempty rfl]
    · rw [if_neg hq, ← hcoh limit (max limit 20) (le_max_left limit 20)]
  unfold search_memory_semantic
  simp only [if_pos rfl]
  refine ⟨rfl, _, rfl, ?_⟩
  rw [List.map_map, hpool]
  rfl

/-- C7 witness: a prefix-coherent collaborator over a fixed two-record store,
query `"auth"`, limit 5. -/
theorem none_mode_matches_direct_witness :
    (∀ n n', n ≤ n' →
      (fun (_ _ : String) (k : Nat) (_ : Filters) =>
        List.take k [({ id := 1, title := "A" } : MemoryRecord), { id := 2, title := "B" }]) "auth" "test" n [] =
      ((fun (_ _ : String) (k : Nat) (_ : Filters) =>
        List.take k [({ id := 1, title := "A" } : MemoryRecord), { id := 2, title := "B" }]) "auth" "test" n' []).take n) ∧
    ((search_memory_semantic
        (fun (_ _ : String) (k : Nat) (_ : Filters) =>
          List.take k [({ id := 1, title := "A" } : MemoryRecord), { id := 2, title := "B" }])
        { is_available := false, embed := fun _ => [] } "auth" "test" 5 "none" []).mode = "fts5_only" ∧
      ∃ rs, (search_memory_semantic
          (fun (_ _ : String) (k : Nat) (_ : Filters) =>
            List.take k [({ id := 1, title := "A" } : MemoryRecord), { id := 2, title := "B" }])
          { is_available := false, embed := fun _ => [] } "auth" "test" 5 "none" []).results = some rs ∧
        (rs.map (fun r => r.record.id)).toFinset =
          (((fun (_ _ : String) (k : Nat) (_ : Filters) =>
              List.take k [({ id := 1, title := "A" } : MemoryRecord), { id := 2, title := "B" }])
            "auth" "test" 5 []).map (fun r => r.id)).toFinset) := by
  have hcoh : ∀ n n', n ≤ n' →
      (fun (_ _ : String) (k : Nat) (_ : Filters) =>
        List.take k [({ id := 1, title := "A" } : MemoryRecord), { id := 2, title := "B" }]) "auth" "test" n [] =
      ((fun (_ _ : String) (k : Nat) (_ : Filters) =>
        List.take k [({ id := 1, title := "A" } : MemoryRecord), { id := 2, title := "B" }]) "auth" "test" n' []).take n := by
    intro n n' h
    simp only [List.take_take, Nat.min_eq_left h]
  exact ⟨hcoh, none_mode_matches_direct _ { is_available := false, embed := fun _ => [] }
    "auth" "test" 5 [] hcoh (fun h => absurd h (by decide))⟩

/-- C8: with rerank mode `claude` and a pool strictly larger than the limit,
the response defers the ranking: tag `claude_rerank`, no `results` key, a
candidate list capped at 20 in pool order, and a prompt that contains the
query verbatim and states the bracketed index-list answer format. -/
theorem claude_mode_defers (f : String → String → Nat → Filters → List MemoryRecord)
    (B : EmbeddingBackend) (q p : String) (limit : Nat) (fv : Filters)
    (h : limit < (candidate_pool f q p limit fv).length) :
    (search_memory_semantic f B q p limit "claude" fv).mode = "claude_rerank" ∧
    (search_memory_semantic f B q p limit "claude" fv).results = none ∧
    (search_memory_semantic f B q p limit "claude" fv).candidates =
      some ((candidate_pool f q p limit fv).take 20) ∧
    ((candidate_pool f q p limit fv).take 20).length ≤ 20 ∧
    (search_memory_semantic f B q p limit "claude" fv).rerank_prompt =
      some (build_rerank_prompt q ((candidate_pool f q p limit fv).take 20) limit) ∧
    (∃ a b, build_rerank_prompt q ((candidate_pool f q p limit fv).take 20) limit =
      a ++ (q ++ b)) ∧
    (∃ a b, build_rerank_prompt q ((candidate_pool f q p limit fv).take 20) limit =
      a ++ ("[0, 3, 7]" ++ b)) := by
  have hresp : search_memory_semantic f B q p limit "claude" fv =
      { mode := "claude_rerank",
        candidates := some ((candidate_pool f q p limit fv).take 20),
        rerank_prompt := some (build_rerank_prompt q ((candidate_pool f q p limit fv).take 20) limit) } := by
    unfold search_memory_semantic
    simp [Nat.not_le.mpr h]
  refine ⟨by rw [hresp], by rw [hresp], by rw [hresp], ?_, by rw [hresp], ?_, ?_⟩
  · simp [List.length_take]
  · exact ⟨"Query: ", _, rfl⟩
  · refine ⟨"Query: " ++ (q ++ ("\n\nCandidates:\n" ++
      (renderCandidates 0 ((candidate_pool f q p limit fv).take 20) ++
        ("\n\nSelect the most relevant candidates for the query above and reply with a bracketed list of at most " ++
          (toString limit ++ " zero-based candidate indices ordered by relevance, e.g. "))))), ".", ?_⟩
    unfold build_rerank_prompt
    simp only [String.append_assoc]

/-- C8 witness: scenario of a two-record pool with `limit = 1` and query
`"auth"`. -/
theorem claude_mode_defers_witness :
    1 < (candidate_pool (fun (_ _ : String) (k : Nat) (_ : Filters) =>
        List.take k [({ id := 1, title := "A", content := "auth notes" } : MemoryRecord), { id := 2, title := "B", content := "other" }])
      "auth" "test" 1 []).length ∧
    ((search_memory_semantic (fun (_ _ : String) (k : Nat) (_ : Filters) =>
          List.take k [({ id := 1, title := "A", content := "auth notes" } : MemoryRecord), { id := 2, title := "B", content := "other" }])
        { is_available := false, embed := fun _ => [] } "auth" "test" 1 "claude" []).mode = "claude_rerank" ∧
      (search_memory_semantic (fun (_ _ : String) (k : Nat) (_ : Filters) =>
          List.take k [({ id := 1, title := "A", content := "auth notes" } : MemoryRecord), { id := 2, title := "B", content := "other" }])
        { is_available := false, embed := fun _ => [] } "auth" "test" 1 "claude" []).results = none ∧
      (∃ a b, build_rerank_prompt "auth"
          ((candidate_pool (fun (_ _ : String) (k : Nat) (_ : Filters) =>
              List.take k [({ id := 1, title := "A", content := "auth notes" } : MemoryRecord), { id := 2, title := "B", content := "other" }])
            "auth" "test" 1 []).take 20) 1 = a ++ ("auth" ++ b)) ∧
      (∃ a b, build_rerank_prompt "auth"
          ((candidate_pool (fun (_ _ : String) (k : Nat) (_ : Filters) =>
              List.take k [({ id := 1, title := "A", content := "auth notes" } : MemoryRecord), { id := 2, title := "B", content := "other" }])
            "auth" "test" 1 []).take 20) 1 = a ++ ("[0, 3, 7]" ++ b))) := by
  have h : 1 < (candidate_pool (fun (_ _ : String) (k : Nat) (_ : Filters) =>
      List.take k [({ id := 1, title := "A", content := "auth notes" } : MemoryRecord), { id := 2, title := "B", content := "other" }])
    "auth" "test" 1 []).length := by decide
  have hc := claude_mode_defers _ { is_available := false, embed := fun _ => [] }
    "auth" "test" 1 [] h
  exact ⟨h, hc.1, hc.2.1, hc.2.2.2.2.2.1, hc.2.2.2.2.2.2⟩

theorem mem_insertDesc (x y : MemoryRecord × ℝ) (l : List (MemoryRecord × ℝ))
    (h : x ∈ insertDesc y l) : x = y ∨ x ∈ l := by
  induction l with
  | nil => simpa [insertDesc] using h
  | cons z zs ih =>
    unfold insertDesc at h
    by_cases hc : z.2 ≤ y.2
    · rw [if_pos hc] at h
      exact List.mem_cons.mp h
    · rw [if_neg hc] at h
      rcases List.mem_cons.mp h with h1 | h1
      · exact Or.inr (List.mem_cons.mpr (Or.inl h1))
      · rcases ih h1 with h2 | h2
        · exact Or.inl h2
        · exact Or.inr (List.mem_cons.mpr (Or.inr h2))

theorem mem_sortDesc (x : MemoryRecord × ℝ) (l : List (MemoryRecord × ℝ))
    (h : x ∈ sortDesc l) : x ∈ l := by
  induction l with
  | nil => simp [sortDesc] at h
  | cons z zs ih =>
    unfold sortDesc at h
    rcases mem_insertDesc x z _ h with h1 | h1
    · exact List.mem_cons.mpr (Or.inl h1)
    · exact List.mem_cons.mpr (Or.inr (ih h1))

theorem clamp01_mem (x : ℝ) : 0 ≤ clamp x 0 1 ∧ clamp x 0 1 ≤ 1 :=
  ⟨le_max_left 0 _, max_le zero_le_one (min_le_left 1 x)⟩

theorem no_score_of_plain (l : List MemoryRecord) (r : ScoredRecord)
    (hmem : r ∈ l.map (fun c => (⟨c, none⟩ : ScoredRecord))) :
    r.semantic_score = none := by
  obtain ⟨c, _, rfl⟩ := List.mem_map.mp hmem
  rfl

/-- C5: every `semantic_score` carried by a result of
`search_memory_semantic` lies in `[0, 1]` and equals
`clamp((cosine + 1)/2, 0, 1)` for the raw cosine similarity of that very
result's record — a pool candidate — against the query vector. -/
theorem semantic_scores_clamped (f : String → String → Nat → Filters → List MemoryRecord)
    (B : EmbeddingBackend) (q p : String) (limit : Nat) (m : String) (fv : Filters)
    (rs : List ScoredRecord) (r : ScoredRecord) (s : ℝ)
    (hres : (search_memory_semantic f B q p limit m fv).results = some rs)
    (hmem : r ∈ rs) (hs : r.semantic_score = some s) :
    0 ≤ s ∧ s ≤ 1 ∧
    ∃ c ∈ candidate_pool f q p limit fv, r.record = c ∧
      s = clamp ((cosine_similarity (B.embed c.content) (B.embed q) + 1) / 2) 0 1 := by
  unfold search_memory_semantic at hres
  by_cases h1 : m = "none"
  · rw [if_pos h1] at hres
    simp only [Option.some.injEq] at hres
    subst hres
    rw [no_score_of_plain _ r hmem] at hs
    cases hs
  · rw [if_neg h1] at hres
    by_cases h2 : (candidate_pool f q p limit fv).length ≤ limit
    · rw [if_pos h2] at hres
      simp only [Option.some.injEq] at hres
      subst hres
      rw [no_score_of_plain _ r hmem] at hs
      cases hs
    · rw [if_neg h2] at hres
      by_cases h3 : m = "claude"
      · rw [if_pos h3] at hres
        cases hres
      · rw [if_neg h3] at hres
        by_cases h4 : m = "embedding"
        · rw [if_pos h4] at hres
          cases hb : B.is_available
          · rw [hb] at hres
            simp only [Bool.false_eq_true, if_false, Option.some.injEq] at hres
            subst hres
            rw [no_score_of_plain _ r hmem] at hs
            cases hs
          · rw [hb] at hres
            simp only [if_true, Option.some.injEq] at hres
            unfold rerank_by_embedding at hres
            rw [hb] at hres
            simp only [if_true] at hres
            subst hres
            obtain ⟨pr, hpr, rfl⟩ := List.mem_map.mp hmem
            simp only [Option.some.injEq] at hs
            subst hs
            have hmem2 := mem_sortDesc pr _ (List.mem_of_mem_take hpr)
            obtain ⟨c, hc, rfl⟩ := List.mem_map.mp hmem2
            exact ⟨(clamp01_mem _).1, (clamp01_mem _).2, c, hc, rfl, rfl⟩
        · rw [if_neg h4] at hres
          simp only [Option.some.injEq] at hres
          subst hres
          rw [no_score_of_plain _ r hmem] at hs
          cases hs

/-- C5 witness: an available backend embedding everything as `[1]` over a
two-copy pool with `limit = 1` produces one scored result, whose score is the
clamped remap of the raw cosine. -/
theorem semantic_scores_clamped_witness :
    (search_memory_semantic
        (fun (_ _ : String) (n : Nat) (_ : Filters) =>
          List.take n [({ id := 3, title := "T", content := "text" } : MemoryRecord),
                       { id := 3, title := "T", content := "text" }])
        { is_available := true, embed := fun _ => [(1 : ℝ)] } "q" "proj" 1 "embedding" []).results =
      some [⟨{ id := 3, title := "T", content := "text" },
            some (clamp ((cosine_similarity [(1 : ℝ)] [(1 : ℝ)] + 1) / 2) 0 1)⟩] ∧
    (0 ≤ clamp ((cosine_similarity [(1 : ℝ)] [(1 : ℝ)] + 1) / 2) 0 1 ∧
     clamp ((cosine_similarity [(1 : ℝ)] [(1 : ℝ)] + 1) / 2) 0 1 ≤ 1 ∧
     ∃ c ∈ candidate_pool
        (fun (_ _ : String) (n : Nat) (_ : Filters) =>
          List.take n [({ id := 3, title := "T", content := "text" } : MemoryRecord),
                       { id := 3, title := "T", content := "text" }]) "q" "proj" 1 [],
       (⟨{ id := 3, title := "T", content := "text" },
         some (clamp ((cosine_similarity [(1 : ℝ)] [(1 : ℝ)] + 1) / 2) 0 1)⟩ : ScoredRecord).record = c ∧
       clamp ((cosine_similarity [(1 : ℝ)] [(1 : ℝ)] + 1) / 2) 0 1 =
         clamp ((cosine_similarity
           (({ is_available := true, embed := fun _ => [(1 : ℝ)] } : EmbeddingBackend).embed c.content)
           (({ is_available := true, embed := fun _ => [(1 : ℝ)] } : EmbeddingBackend).embed "q") + 1) / 2) 0 1) := by
  have hres : (search_memory_semantic
      (fun (_ _ : String) (n : Nat) (_ : Filters) =>
        List.take n [({ id := 3, title := "T", content := "text" } : MemoryRecord),
                     { id := 3, title := "T", content := "text" }])
      { is_available := true, embed := fun _ => [(1 : ℝ)] } "q" "proj" 1 "embedding" []).results =
      some [⟨{ id := 3, title := "T", content := "text" },
            some (clamp ((cosine_similarity [(1 : ℝ)] [(1 : ℝ)] + 1) / 2) 0 1)⟩] := by
    simp [search_memory_semantic, candidate_pool, rerank_by_embedding, sortDesc, insertDesc]
  exact ⟨hres, semantic_scores_clamped _ { is_available := true, embed := fun _ => [(1 : ℝ)] }
    "q" "proj" 1 "embedding" [] _
    ⟨{ id := 3, title := "T", content := "text" },
      some (clamp ((cosine_similarity [(1 : ℝ)] [(1 : ℝ)] + 1) / 2) 0 1)⟩
    (clamp ((cosine_similarity [(1 : ℝ)] [(1 : ℝ)] + 1) / 2) 0 1)
    hres (by simp) rfl⟩
